import Mathlib

/-
Shallow embedding of the rate-control wrappers in src/debounce.ts and
src/throttle.ts (package debounce-throttle-lite).

Modelling conventions:
- Times are Int milliseconds (Date.now values); durations are Int.
- The closure-captured mutable variables of each wrapper (timeoutId,
  lastCallTime, lastInvokeTime, lastArgs, result) become the fields of an
  explicit state record.  The timer handle timeoutId is modelled by the
  absolute time at which the scheduled timerExpired callback will fire
  (setTimeout(timerExpired, d) at time t becomes timeoutId := some (t + d));
  clearTimeout / reassignment replaces the field.  The debounce source also
  declares maxTimeoutId, but no line of the source ever schedules it (cancel
  merely clears it), so it is dead state and is omitted from the record.
- The wrapped callable is a pure function f : alpha -> rho; the lastThis
  receiver is not modelled (no claim mentions it; it rides along with the
  arguments).  JavaScript undefined results are modelled by Option.
- invocations is an observation log: invokeFunc appends the (time, args)
  pair of every actual call of the underlying callable.  No source code
  branches on it; it only makes the invocation history provable.
- JavaScript truthiness of maxWait (the checks "maxWait ?" and
  "if (maxWait)") is modelled by maxWaitTruthy: some 0 is falsy, any other
  configured value is truthy; the check "maxWait !== undefined" in
  shouldInvoke is Option.isSome.
- The fake-timer collaborator (jest in the tests) delivers a scheduled
  callback exactly at its deadline when no wrapper operation intervenes.
  The drivers fireDue / drain / runBurst encode that clock: fireDue fires
  the callbacks that come due before a given instant, drain fires the
  remaining callbacks after the last call, runBurst interleaves calls with
  the callbacks due before each of them.
-/

/-- Mutable state captured by a wrapper closure, plus the invocation log. -/
structure DState (α ρ : Type) where
  timeoutId : Option Int
  lastCallTime : Int
  lastInvokeTime : Int
  lastArgs : Option α
  result : Option ρ
  invocations : List (Int × α)
deriving Repr, DecidableEq

/-- State of a freshly constructed wrapper (all sentinels / absent). -/
def initState {α ρ : Type} : DState α ρ :=
  ⟨none, 0, 0, none, none, []⟩

namespace Debounce

/-- Configuration of debounce: wait plus the destructured options with the
source defaults leading = false, trailing = true, maxWait undefined. -/
structure Config where
  wait : Int
  leading : Bool := false
  trailing : Bool := true
  maxWait : Option Int := none
deriving Repr, DecidableEq

/-- JavaScript truthiness of the captured maxWait option: undefined and 0
are falsy, every other number is truthy. -/
def maxWaitTruthy (cfg : Config) : Bool :=
  match cfg.maxWait with
  | some mw => decide (mw ≠ 0)
  | none => false

variable {α ρ : Type}

/-- invokeFunc of src/debounce.ts: consume lastArgs, stamp lastInvokeTime,
call the underlying function, cache and return the result.  Every caller in
the source establishes lastArgs before the call (the source uses the
non-null assertion lastArgs!), so the none branch is dead code. -/
def invokeFunc (f : α → ρ) (time : Int) (s : DState α ρ) : DState α ρ × Option ρ :=
  match s.lastArgs with
  | some args =>
    let r := f args
    ({ s with lastArgs := none, lastInvokeTime := time, result := some r,
              invocations := s.invocations ++ [(time, args)] }, some r)
  | none =>
    ({ s with lastArgs := none, lastInvokeTime := time }, none)

/-- leadingEdge of src/debounce.ts: stamp lastInvokeTime, schedule
timerExpired after wait, invoke only when leading is set. -/
def leadingEdge (cfg : Config) (f : α → ρ) (time : Int) (s : DState α ρ) :
    DState α ρ × Option ρ :=
  let s1 := { s with lastInvokeTime := time, timeoutId := some (time + cfg.wait) }
  if cfg.leading then invokeFunc f time s1 else (s1, s1.result)

/-- remainingWait of src/debounce.ts; the maxWait clamp is applied only when
maxWait is truthy (the source ternary "maxWait ? ... : ..."). -/
def remainingWait (cfg : Config) (time : Int) (s : DState α ρ) : Int :=
  let timeSinceLastCall := time - s.lastCallTime
  let timeSinceLastInvoke := time - s.lastInvokeTime
  let timeWaiting := cfg.wait - timeSinceLastCall
  match cfg.maxWait with
  | some mw =>
    if mw ≠ 0 then min timeWaiting (mw - timeSinceLastInvoke) else timeWaiting
  | none => timeWaiting

/-- shouldInvoke of src/debounce.ts.  Note the maxWait disjunct tests
"maxWait !== undefined", not truthiness. -/
def shouldInvoke (cfg : Config) (time : Int) (s : DState α ρ) : Bool :=
  let timeSinceLastCall := time - s.lastCallTime
  let timeSinceLastInvoke := time - s.lastInvokeTime
  (s.lastCallTime == 0) ||
  decide (timeSinceLastCall ≥ cfg.wait) ||
  decide (timeSinceLastCall < 0) ||
  (match cfg.maxWait with
   | some mw => decide (timeSinceLastInvoke ≥ mw)
   | none => false)

/-- trailingEdge of src/debounce.ts: clear the schedule; invoke with the
pending arguments only when trailing is set and arguments are pending,
otherwise drop the pending arguments and return the cached result. -/
def trailingEdge (cfg : Config) (f : α → ρ) (time : Int) (s : DState α ρ) :
    DState α ρ × Option ρ :=
  let s1 := { s with timeoutId := none }
  if cfg.trailing && s1.lastArgs.isSome then invokeFunc f time s1
  else ({ s1 with lastArgs := none }, s1.result)

/-- timerExpired of src/debounce.ts, with the Date.now() at which the
callback runs passed explicitly: complete the trailing edge when
shouldInvoke holds, otherwise reschedule for the remaining wait. -/
def timerExpired (cfg : Config) (f : α → ρ) (time : Int) (s : DState α ρ) :
    DState α ρ × Option ρ :=
  if shouldInvoke cfg time s then trailingEdge cfg f time s
  else ({ s with timeoutId := some (time + remainingWait cfg time s) }, none)

/-- cancel of src/debounce.ts: clear any schedule and reset the timing state
to the sentinels; the cached result is untouched. -/
def cancel (s : DState α ρ) : DState α ρ :=
  { s with lastInvokeTime := 0, lastCallTime := 0, lastArgs := none,
           timeoutId := none }

/-- flush of src/debounce.ts, with Date.now() passed explicitly: return the
cached result when no schedule is outstanding, otherwise force the trailing
edge now. -/
def flush (cfg : Config) (f : α → ρ) (time : Int) (s : DState α ρ) :
    DState α ρ × Option ρ :=
  match s.timeoutId with
  | none => (s, s.result)
  | some _ => trailingEdge cfg f time s

/-- pending getter of src/debounce.ts: a schedule is outstanding. -/
def pending (s : DState α ρ) : Bool :=
  s.timeoutId.isSome

/-- debounced of src/debounce.ts (the wrapper body), with Date.now() passed
explicitly.  The branch where isInvoking holds, a schedule is outstanding
and maxWait is falsy falls through to the source line that checks
"timeoutId === undefined" again; that check is false there, so the
fall-through returns the cached result unchanged. -/
def debounced (cfg : Config) (f : α → ρ) (time : Int) (args : α)
    (s : DState α ρ) : DState α ρ × Option ρ :=
  let isInvoking := shouldInvoke cfg time s
  let s1 := { s with lastArgs := some args, lastCallTime := time }
  if isInvoking then
    if s1.timeoutId = none then
      leadingEdge cfg f time s1
    else if maxWaitTruthy cfg then
      invokeFunc f time { s1 with timeoutId := some (time + cfg.wait) }
    else if s1.timeoutId = none then
      ({ s1 with timeoutId := some (time + cfg.wait) }, s1.result)
    else (s1, s1.result)
  else if s1.timeoutId = none then
    ({ s1 with timeoutId := some (time + cfg.wait) }, s1.result)
  else (s1, s1.result)

/-- Factory debounce(func, wait, options) of src/debounce.ts, modelled with
an error channel for construction-time failures.  The source body performs
no validation and cannot throw before returning the wrapper, so the result
is always ok. -/
def debounceFactory (α ρ : Type) (wait : Int) (leading trailing : Bool)
    (maxWait : Option Int) : Except String (Config × DState α ρ) :=
  .ok ({ wait := wait, leading := leading, trailing := trailing,
         maxWait := maxWait }, initState)

/-- Fake-clock driver: fire the scheduled callback while it comes due no
later than instant t, spending one unit of fuel per delivery. -/
def fireDue (cfg : Config) (f : α → ρ) (t : Int) : Nat → DState α ρ → DState α ρ
  | 0, s => s
  | fuel + 1, s =>
    match s.timeoutId with
    | some d => if d ≤ t then fireDue cfg f t fuel (timerExpired cfg f d s).1 else s
    | none => s

/-- Fake-clock driver: process a list of timed calls in order, firing the
callbacks due before each call first (jest advanceTimersByTime runs due
timers before code that follows it). -/
def runBurst (cfg : Config) (f : α → ρ) (fuel : Nat) :
    List (Int × α) → DState α ρ → DState α ρ
  | [], s => s
  | (t, a) :: rest, s =>
    runBurst cfg f fuel rest (debounced cfg f t a (fireDue cfg f t fuel s)).1

/-- Fake-clock driver: with no further wrapper calls, deliver each scheduled
callback at exactly its deadline until none is outstanding or fuel runs out. -/
def drain (cfg : Config) (f : α → ρ) : Nat → DState α ρ → DState α ρ
  | 0, s => s
  | fuel + 1, s =>
    match s.timeoutId with
    | some d => drain cfg f fuel (timerExpired cfg f d s).1
    | none => s

/-- Sorted-burst predicate: successive call times are nondecreasing and each
gap is shorter than wait (prev is the time of the previous call). -/
def okGaps (wait : Int) : Int → List (Int × α) → Bool
  | _, [] => true
  | prev, (t, _) :: rest =>
    (decide (prev ≤ t) && decide (t - prev < wait)) && okGaps wait t rest

/-- Last element of a call list, with the given call as default. -/
def lastCall (t : Int) (a : α) : List (Int × α) → Int × α
  | [] => (t, a)
  | (u, b) :: rest => lastCall u b rest

end Debounce

namespace Throttle

/-- Configuration of throttle: wait plus the destructured options with the
source defaults leading = true, trailing = true. -/
structure Config where
  wait : Int
  leading : Bool := true
  trailing : Bool := true
deriving Repr, DecidableEq

variable {α ρ : Type}

/-- invokeFunc of src/throttle.ts (same text as the debounce copy). -/
def invokeFunc (f : α → ρ) (time : Int) (s : DState α ρ) : DState α ρ × Option ρ :=
  match s.lastArgs with
  | some args =>
    let r := f args
    ({ s with lastArgs := none, lastInvokeTime := time, result := some r,
              invocations := s.invocations ++ [(time, args)] }, some r)
  | none =>
    ({ s with lastArgs := none, lastInvokeTime := time }, none)

/-- leadingEdge of src/throttle.ts: stamp lastInvokeTime and invoke when
leading is set; unlike debounce it does NOT schedule a timer (the source
comment: do not set timeoutId here for leading execution). -/
def leadingEdge (cfg : Config) (f : α → ρ) (time : Int) (s : DState α ρ) :
    DState α ρ × Option ρ :=
  let s1 := { s with lastInvokeTime := time }
  if cfg.leading then invokeFunc f time s1 else (s1, s1.result)

/-- remainingWait of src/throttle.ts: the unclamped time still to wait
(timeSinceLastInvoke is computed but unused in the source). -/
def remainingWait (cfg : Config) (time : Int) (s : DState α ρ) : Int :=
  let timeSinceLastCall := time - s.lastCallTime
  cfg.wait - timeSinceLastCall

/-- shouldInvoke of src/throttle.ts: the recurring-window test uses elapsed
time since the last actual invocation against wait itself. -/
def shouldInvoke (cfg : Config) (time : Int) (s : DState α ρ) : Bool :=
  let timeSinceLastCall := time - s.lastCallTime
  let timeSinceLastInvoke := time - s.lastInvokeTime
  (s.lastCallTime == 0) ||
  decide (timeSinceLastCall ≥ cfg.wait) ||
  decide (timeSinceLastCall < 0) ||
  decide (timeSinceLastInvoke ≥ cfg.wait)

/-- trailingEdge of src/throttle.ts (same text as the debounce copy). -/
def trailingEdge (cfg : Config) (f : α → ρ) (time : Int) (s : DState α ρ) :
    DState α ρ × Option ρ :=
  let s1 := { s with timeoutId := none }
  if cfg.trailing && s1.lastArgs.isSome then invokeFunc f time s1
  else ({ s1 with lastArgs := none }, s1.result)

/-- timerExpired of src/throttle.ts, with Date.now() passed explicitly. -/
def timerExpired (cfg : Config) (f : α → ρ) (time : Int) (s : DState α ρ) :
    DState α ρ × Option ρ :=
  if shouldInvoke cfg time s then trailingEdge cfg f time s
  else ({ s with timeoutId := some (time + remainingWait cfg time s) }, none)

/-- cancel of src/throttle.ts: clear the schedule and reset timing state to
the sentinels; the cached result is untouched. -/
def cancel (s : DState α ρ) : DState α ρ :=
  { s with lastInvokeTime := 0, lastCallTime := 0, lastArgs := none,
           timeoutId := none }

/-- flush of src/throttle.ts, with Date.now() passed explicitly. -/
def flush (cfg : Config) (f : α → ρ) (time : Int) (s : DState α ρ) :
    DState α ρ × Option ρ :=
  match s.timeoutId with
  | none => (s, s.result)
  | some _ => trailingEdge cfg f time s

/-- pending getter of src/throttle.ts. -/
def pending (s : DState α ρ) : Bool :=
  s.timeoutId.isSome

/-- throttled of src/throttle.ts (the wrapper body), with Date.now() passed
explicitly.  When isInvoking holds but a schedule is outstanding, control
falls through to the source check "timeoutId === undefined && trailing",
which is false there, so the cached result is returned unchanged. -/
def throttled (cfg : Config) (f : α → ρ) (time : Int) (args : α)
    (s : DState α ρ) : DState α ρ × Option ρ :=
  let isInvoking := shouldInvoke cfg time s
  let s1 := { s with lastArgs := some args, lastCallTime := time }
  if isInvoking then
    if s1.timeoutId = none then
      leadingEdge cfg f time s1
    else if s1.timeoutId.isNone && cfg.trailing then
      ({ s1 with timeoutId := some (time + cfg.wait) }, s1.result)
    else (s1, s1.result)
  else if s1.timeoutId.isNone && cfg.trailing then
    ({ s1 with timeoutId := some (time + cfg.wait) }, s1.result)
  else (s1, s1.result)

/-- Factory throttle(func, wait, options) of src/throttle.ts, modelled with
an error channel for construction-time failures.  The source body performs
no validation and cannot throw before returning the wrapper, so the result
is always ok. -/
def throttleFactory (α ρ : Type) (wait : Int) (leading trailing : Bool) :
    Except String (Config × DState α ρ) :=
  .ok ({ wait := wait, leading := leading, trailing := trailing }, initState)

/-- Fake-clock driver for throttle: deliver each scheduled callback at its
deadline until none is outstanding or fuel runs out. -/
def drain (cfg : Config) (f : α → ρ) : Nat → DState α ρ → DState α ρ
  | 0, s => s
  | fuel + 1, s =>
    match s.timeoutId with
    | some d => drain cfg f fuel (timerExpired cfg f d s).1
    | none => s

end Throttle

section Fixtures

/-- Debounce configuration with wait 100 and the source defaults
(leading false, trailing true, no maxWait). -/
def dfltDCfg : Debounce.Config := { wait := 100 }

/-- Throttle configuration with wait 100 and the source defaults. -/
def dfltTCfg : Throttle.Config := { wait := 100 }

/-- State of a default debounce wrapper after one call at t = 1 with
argument 7: a trailing invocation is pending. -/
def sPend : DState Nat Nat :=
  (Debounce.debounced dfltDCfg (fun n : Nat => n + 1) 1 7 initState).1

/-- Debounce configuration with trailing disabled. -/
def c3Cfg : Debounce.Config := { wait := 100, trailing := false }

/-- State of the trailing-disabled debounce wrapper after one call at t = 1
with argument 7: a schedule is outstanding and arguments are pending. -/
def c3S : DState Nat Nat :=
  (Debounce.debounced c3Cfg (fun n : Nat => n + 1) 1 7 initState).1

/-- Debounce configuration with maxWait configured as 0 (defined, but falsy
for the JavaScript truthiness checks of the source). -/
def c4Cfg : Debounce.Config := { wait := 100, maxWait := some 0 }

/-- State of the maxWait-0 debounce wrapper after one call at t = 1. -/
def c4S : DState Nat Nat :=
  (Debounce.debounced c4Cfg (fun n : Nat => n + 1) 1 1 initState).1

/-- Debounce configuration with a nonzero maxWait of 50. -/
def c4WCfg : Debounce.Config := { wait := 100, maxWait := some 50 }

/-- State of the maxWait-50 debounce wrapper after one call at t = 1. -/
def c4WS : DState Nat Nat :=
  (Debounce.debounced c4WCfg (fun n : Nat => n + 1) 1 1 initState).1

/-- Invariant holding after each call of a trailing-only debounce burst
(leading false, trailing true, no maxWait): the latest call at time t with
argument a is recorded, nothing has been invoked yet, and one check is
scheduled strictly after t but no later than t + wait; when the recorded
call time collides with the unset sentinel 0, the schedule sits exactly at
t + wait (it was created by the very first leadingEdge). -/
def BurstInv {α ρ : Type} (wait t : Int) (a : α) (s : DState α ρ) : Prop :=
  0 ≤ t ∧ s.lastCallTime = t ∧ s.lastArgs = some a ∧ s.invocations = [] ∧
    ∃ d, s.timeoutId = some d ∧ t < d ∧ d ≤ t + wait ∧ (t = 0 → d = t + wait)

end Fixtures

section Helpers

variable {α ρ : Type}

theorem debounce_trailingEdge_invoke (cfg : Debounce.Config) (f : α → ρ) (t : Int)
    (s : DState α ρ) (a : α) (htr : cfg.trailing = true) (ha : s.lastArgs = some a) :
    Debounce.trailingEdge cfg f t s =
      ({ s with timeoutId := none, lastArgs := none, lastInvokeTime := t,
                result := some (f a), invocations := s.invocations ++ [(t, a)] },
       some (f a)) := by
  cases s
  simp only [DState.lastArgs] at ha
  subst ha
  simp [Debounce.trailingEdge, Debounce.invokeFunc, htr]

theorem debounce_trailingEdge_skip (cfg : Debounce.Config) (f : α → ρ) (t : Int)
    (s : DState α ρ) (h : cfg.trailing = false ∨ s.lastArgs = none) :
    Debounce.trailingEdge cfg f t s =
      ({ s with timeoutId := none, lastArgs := none }, s.result) := by
  cases s
  rcases h with h | h
  · simp [Debounce.trailingEdge, h]
  · simp only [DState.lastArgs] at h
    subst h
    simp [Debounce.trailingEdge]

theorem debounce_fireDue_noop (cfg : Debounce.Config) (f : α → ρ) (t : Int)
    (s : DState α ρ) (h : ∀ d, s.timeoutId = some d → t < d) (fuel : Nat) :
    Debounce.fireDue cfg f t fuel s = s := by
  cases fuel with
  | zero => rfl
  | succ k =>
    cases hti : s.timeoutId with
    | none => simp [Debounce.fireDue, hti]
    | some d =>
      have hlt := h d hti
      simp [Debounce.fireDue, hti, show ¬(d ≤ t) from by omega]

theorem debounce_drain_none (cfg : Debounce.Config) (f : α → ρ)
    (s : DState α ρ) (h : s.timeoutId = none) (k : Nat) :
    Debounce.drain cfg f k s = s := by
  cases k with
  | zero => rfl
  | succ m =>
    unfold Debounce.drain
    rw [h]

theorem throttle_trailingEdge_invoke (cfg : Throttle.Config) (f : α → ρ) (t : Int)
    (s : DState α ρ) (a : α) (htr : cfg.trailing = true) (ha : s.lastArgs = some a) :
    Throttle.trailingEdge cfg f t s =
      ({ s with timeoutId := none, lastArgs := none, lastInvokeTime := t,
                result := some (f a), invocations := s.invocations ++ [(t, a)] },
       some (f a)) := by
  cases s
  simp only [DState.lastArgs] at ha
  subst ha
  simp [Throttle.trailingEdge, Throttle.invokeFunc, htr]

theorem throttle_trailingEdge_skip (cfg : Throttle.Config) (f : α → ρ) (t : Int)
    (s : DState α ρ) (h : cfg.trailing = false ∨ s.lastArgs = none) :
    Throttle.trailingEdge cfg f t s =
      ({ s with timeoutId := none, lastArgs := none }, s.result) := by
  cases s
  rcases h with h | h
  · simp [Throttle.trailingEdge, h]
  · simp only [DState.lastArgs] at h
    subst h
    simp [Throttle.trailingEdge]

theorem throttle_drain_none (cfg : Throttle.Config) (f : α → ρ)
    (s : DState α ρ) (h : s.timeoutId = none) (k : Nat) :
    Throttle.drain cfg f k s = s := by
  cases k with
  | zero => rfl
  | succ m =>
    unfold Throttle.drain
    rw [h]

theorem debounce_trailingEdge_keeps_lastInvoke (cfg : Debounce.Config)
    (f : α → ρ) (t : Int) (s : DState α ρ)
    (h : (Debounce.trailingEdge cfg f t s).1.invocations = s.invocations) :
    (Debounce.trailingEdge cfg f t s).1.lastInvokeTime = s.lastInvokeTime := by
  rcases htr : cfg.trailing with _ | _
  · rw [debounce_trailingEdge_skip cfg f t s (Or.inl htr)]
  · cases ha : s.lastArgs with
    | none => rw [debounce_trailingEdge_skip cfg f t s (Or.inr ha)]
    | some a =>
      rw [debounce_trailingEdge_invoke cfg f t s a htr ha] at h
      exfalso
      have hlen := congrArg List.length h
      simp [List.length_append] at hlen

theorem throttle_trailingEdge_keeps_lastInvoke (cfg : Throttle.Config)
    (f : α → ρ) (t : Int) (s : DState α ρ)
    (h : (Throttle.trailingEdge cfg f t s).1.invocations = s.invocations) :
    (Throttle.trailingEdge cfg f t s).1.lastInvokeTime = s.lastInvokeTime := by
  rcases htr : cfg.trailing with _ | _
  · rw [throttle_trailingEdge_skip cfg f t s (Or.inl htr)]
  · cases ha : s.lastArgs with
    | none => rw [throttle_trailingEdge_skip cfg f t s (Or.inr ha)]
    | some a =>
      rw [throttle_trailingEdge_invoke cfg f t s a htr ha] at h
      exfalso
      have hlen := congrArg List.length h
      simp [List.length_append] at hlen

theorem debounce_timerExpired_keeps_lastInvoke (cfg : Debounce.Config)
    (f : α → ρ) (t : Int) (s : DState α ρ)
    (h : (Debounce.timerExpired cfg f t s).1.invocations = s.invocations) :
    (Debounce.timerExpired cfg f t s).1.lastInvokeTime = s.lastInvokeTime := by
  cases hsi : Debounce.shouldInvoke cfg t s with
  | false => simp [Debounce.timerExpired, hsi]
  | true =>
    simp only [Debounce.timerExpired, hsi, if_true] at h ⊢
    exact debounce_trailingEdge_keeps_lastInvoke cfg f t s h

theorem throttle_timerExpired_keeps_lastInvoke (cfg : Throttle.Config)
    (f : α → ρ) (t : Int) (s : DState α ρ)
    (h : (Throttle.timerExpired cfg f t s).1.invocations = s.invocations) :
    (Throttle.timerExpired cfg f t s).1.lastInvokeTime = s.lastInvokeTime := by
  cases hsi : Throttle.shouldInvoke cfg t s with
  | false => simp [Throttle.timerExpired, hsi]
  | true =>
    simp only [Throttle.timerExpired, hsi, if_true] at h ⊢
    exact throttle_trailingEdge_keeps_lastInvoke cfg f t s h

theorem debounce_flush_keeps_lastInvoke (cfg : Debounce.Config)
    (f : α → ρ) (t : Int) (s : DState α ρ)
    (h : (Debounce.flush cfg f t s).1.invocations = s.invocations) :
    (Debounce.flush cfg f t s).1.lastInvokeTime = s.lastInvokeTime := by
  cases hti : s.timeoutId with
  | none => simp [Debounce.flush, hti]
  | some d =>
    simp only [Debounce.flush, hti] at h ⊢
    exact debounce_trailingEdge_keeps_lastInvoke cfg f t s h

theorem throttle_flush_keeps_lastInvoke (cfg : Throttle.Config)
    (f : α → ρ) (t : Int) (s : DState α ρ)
    (h : (Throttle.flush cfg f t s).1.invocations = s.invocations) :
    (Throttle.flush cfg f t s).1.lastInvokeTime = s.lastInvokeTime := by
  cases hti : s.timeoutId with
  | none => simp [Throttle.flush, hti]
  | some d =>
    simp only [Throttle.flush, hti] at h ⊢
    exact throttle_trailingEdge_keeps_lastInvoke cfg f t s h

theorem debounce_call_lastInvoke (cfg : Debounce.Config) (f : α → ρ)
    (t : Int) (a : α) (s : DState α ρ)
    (h : (Debounce.debounced cfg f t a s).1.invocations = s.invocations) :
    (Debounce.debounced cfg f t a s).1.lastInvokeTime = s.lastInvokeTime ∨
      ((Debounce.debounced cfg f t a s).1.lastInvokeTime = t ∧
        s.timeoutId = none) := by
  cases s with
  | mk ti lct lit la res inv =>
    cases hsi : Debounce.shouldInvoke cfg t ⟨ti, lct, lit, la, res, inv⟩ with
    | false =>
      cases ti <;> simp [Debounce.debounced, hsi]
    | true =>
      cases ti with
      | none =>
        cases hld : cfg.leading with
        | false =>
          right
          simp [Debounce.debounced, hsi, Debounce.leadingEdge, hld]
        | true =>
          exfalso
          simp [Debounce.debounced, hsi, Debounce.leadingEdge, hld,
                Debounce.invokeFunc] at h
      | some d =>
        cases hmx : Debounce.maxWaitTruthy cfg with
        | true =>
          exfalso
          simp [Debounce.debounced, hsi, hmx, Debounce.invokeFunc] at h
        | false =>
          left
          simp [Debounce.debounced, hsi, hmx]

theorem throttle_call_lastInvoke (cfg : Throttle.Config) (f : α → ρ)
    (t : Int) (a : α) (s : DState α ρ)
    (h : (Throttle.throttled cfg f t a s).1.invocations = s.invocations) :
    (Throttle.throttled cfg f t a s).1.lastInvokeTime = s.lastInvokeTime ∨
      ((Throttle.throttled cfg f t a s).1.lastInvokeTime = t ∧
        s.timeoutId = none) := by
  cases s with
  | mk ti lct lit la res inv =>
    cases hsi : Throttle.shouldInvoke cfg t ⟨ti, lct, lit, la, res, inv⟩ with
    | false =>
      cases ti <;> cases htr : cfg.trailing <;>
        simp [Throttle.throttled, hsi, htr]
    | true =>
      cases ti with
      | none =>
        cases hld : cfg.leading with
        | false =>
          right
          simp [Throttle.throttled, hsi, Throttle.leadingEdge, hld]
        | true =>
          exfalso
          simp [Throttle.throttled, hsi, Throttle.leadingEdge, hld,
                Throttle.invokeFunc] at h
      | some d =>
        cases htr : cfg.trailing <;>
          simp [Throttle.throttled, hsi, htr]

end Helpers

section Claims

variable {α ρ : Type}

/-- C2: for every state and time, shouldInvoke(now) is true exactly when the
last call is unrecorded (sentinel 0), or the elapsed time since the last call
is at least wait, or that elapsed time is negative, or (debounce) a maxWait
is configured and the elapsed time since the last invocation is at least
maxWait, or (throttle) the elapsed time since the last invocation is at
least wait. -/
theorem c2_shouldInvoke_characterization (dcfg : Debounce.Config)
    (tcfg : Throttle.Config) (t u : Int) (s s2 : DState α ρ) :
    (Debounce.shouldInvoke dcfg t s = true ↔
      s.lastCallTime = 0 ∨ t - s.lastCallTime ≥ dcfg.wait ∨
        t - s.lastCallTime < 0 ∨
        ∃ mw, dcfg.maxWait = some mw ∧ t - s.lastInvokeTime ≥ mw) ∧
    (Throttle.shouldInvoke tcfg u s2 = true ↔
      s2.lastCallTime = 0 ∨ u - s2.lastCallTime ≥ tcfg.wait ∨
        u - s2.lastCallTime < 0 ∨ u - s2.lastInvokeTime ≥ tcfg.wait) := by
  constructor
  · unfold Debounce.shouldInvoke
    cases h : dcfg.maxWait with
    | none => simp [h]; tauto
    | some mw => simp [h]; tauto
  · unfold Throttle.shouldInvoke
    simp; tauto

/-- C5: immediately after cancel the pending predicate is false and the
pending arguments are discarded, and no passage of time or flush after the
cancel can invoke the underlying callable: the delivery drivers leave the
cancelled state fixed and flush returns the cached result, for both
wrappers. -/
theorem c5_cancel_prevents_invocation (dcfg : Debounce.Config)
    (tcfg : Throttle.Config) (f g : α → ρ) (t u v : Int)
    (s s2 : DState α ρ) (k m n : Nat) :
    (Debounce.pending (Debounce.cancel s) = false ∧
     (Debounce.cancel s).lastArgs = none ∧
     Debounce.drain dcfg f k (Debounce.cancel s) = Debounce.cancel s ∧
     Debounce.fireDue dcfg f t m (Debounce.cancel s) = Debounce.cancel s ∧
     Debounce.flush dcfg f u (Debounce.cancel s) =
       (Debounce.cancel s, (Debounce.cancel s).result)) ∧
    (Throttle.pending (Throttle.cancel s2) = false ∧
     (Throttle.cancel s2).lastArgs = none ∧
     Throttle.drain tcfg g n (Throttle.cancel s2) = Throttle.cancel s2 ∧
     Throttle.flush tcfg g v (Throttle.cancel s2) =
       (Throttle.cancel s2, (Throttle.cancel s2).result)) := by
  refine ⟨⟨?_, ?_, ?_, ?_, ?_⟩, ⟨?_, ?_, ?_, ?_⟩⟩
  · simp [Debounce.pending, Debounce.cancel]
  · simp [Debounce.cancel]
  · exact debounce_drain_none dcfg f _ (by simp [Debounce.cancel]) k
  · exact debounce_fireDue_noop dcfg f t _ (by simp [Debounce.cancel]) m
  · simp [Debounce.flush, Debounce.cancel]
  · simp [Throttle.pending, Throttle.cancel]
  · simp [Throttle.cancel]
  · exact throttle_drain_none tcfg g _ (by simp [Throttle.cancel]) n
  · simp [Throttle.flush, Throttle.cancel]

/-- C7 counterexample: constructed with the negative wait -5, both factories
return a wrapper (an ok value holding the configuration and fresh state)
instead of failing fast with a configuration error. -/
theorem c7_counterexample :
    Debounce.debounceFactory Nat Nat (-5) false true none =
      .ok ({ wait := -5, leading := false, trailing := true, maxWait := none },
           initState) ∧
    Throttle.throttleFactory Nat Nat (-5) true true =
      .ok ({ wait := -5, leading := true, trailing := true }, initState) :=
  ⟨rfl, rfl⟩

/-- C7 amended: the factories perform no construction-time validation at
all; for every wait (negative included) and every option assignment they
return a wrapper over the fresh state, never a configuration error. -/
theorem c7_no_construction_validation (wait : Int) (l tr l2 tr2 : Bool)
    (mw : Option Int) :
    Debounce.debounceFactory α ρ wait l tr mw =
      .ok ({ wait := wait, leading := l, trailing := tr, maxWait := mw },
           initState) ∧
    Throttle.throttleFactory α ρ wait l2 tr2 =
      .ok ({ wait := wait, leading := l2, trailing := tr2 }, initState) :=
  ⟨rfl, rfl⟩

/-- C8: flushing twice in a row with no intervening calls invokes at most
once: after the first flush the pending predicate is false, and the second
flush returns the cached result with state unchanged (so in particular it
performs no invocation), for both wrappers. -/
theorem c8_flush_idempotent (dcfg : Debounce.Config) (tcfg : Throttle.Config)
    (f g : α → ρ) (t1 t2 u1 u2 : Int) (s s2 : DState α ρ) :
    (Debounce.pending (Debounce.flush dcfg f t1 s).1 = false ∧
     Debounce.flush dcfg f t2 (Debounce.flush dcfg f t1 s).1 =
       ((Debounce.flush dcfg f t1 s).1, (Debounce.flush dcfg f t1 s).1.result) ∧
     (Debounce.flush dcfg f t1 s).1.invocations.length ≤
       s.invocations.length + 1) ∧
    (Throttle.pending (Throttle.flush tcfg g u1 s2).1 = false ∧
     Throttle.flush tcfg g u2 (Throttle.flush tcfg g u1 s2).1 =
       ((Throttle.flush tcfg g u1 s2).1,
        (Throttle.flush tcfg g u1 s2).1.result) ∧
     (Throttle.flush tcfg g u1 s2).1.invocations.length ≤
       s2.invocations.length + 1) := by
  constructor
  · cases hti : s.timeoutId with
    | none =>
      refine ⟨?_, ?_, ?_⟩ <;> simp [Debounce.flush, Debounce.pending, hti]
    | some d =>
      have hfl : Debounce.flush dcfg f t1 s = Debounce.trailingEdge dcfg f t1 s := by
        simp [Debounce.flush, hti]
      rcases htr : dcfg.trailing with _ | _
      · rw [hfl, debounce_trailingEdge_skip dcfg f t1 s (Or.inl htr)]
        refine ⟨?_, ?_, ?_⟩ <;> simp [Debounce.flush, Debounce.pending]
      · cases ha : s.lastArgs with
        | none =>
          rw [hfl, debounce_trailingEdge_skip dcfg f t1 s (Or.inr ha)]
          refine ⟨?_, ?_, ?_⟩ <;> simp [Debounce.flush, Debounce.pending]
        | some a =>
          rw [hfl, debounce_trailingEdge_invoke dcfg f t1 s a htr ha]
          refine ⟨?_, ?_, ?_⟩ <;> simp [Debounce.flush, Debounce.pending]
  · cases hti : s2.timeoutId with
    | none =>
      refine ⟨?_, ?_, ?_⟩ <;> simp [Throttle.flush, Throttle.pending, hti]
    | some d =>
      have hfl : Throttle.flush tcfg g u1 s2 = Throttle.trailingEdge tcfg g u1 s2 := by
        simp [Throttle.flush, hti]
      rcases htr : tcfg.trailing with _ | _
      · rw [hfl, throttle_trailingEdge_skip tcfg g u1 s2 (Or.inl htr)]
        refine ⟨?_, ?_, ?_⟩ <;> simp [Throttle.flush, Throttle.pending]
      · cases ha : s2.lastArgs with
        | none =>
          rw [hfl, throttle_trailingEdge_skip tcfg g u1 s2 (Or.inr ha)]
          refine ⟨?_, ?_, ?_⟩ <;> simp [Throttle.flush, Throttle.pending]
        | some a =>
          rw [hfl, throttle_trailingEdge_invoke tcfg g u1 s2 a htr ha]
          refine ⟨?_, ?_, ?_⟩ <;> simp [Throttle.flush, Throttle.pending]

/-- C10: cancel leaves the cached result (and the invocation log) unchanged
for both wrappers, and a flush performed after the cancel returns exactly
that prior cached result without invoking anything. -/
theorem c10_cancel_preserves_cached_result (dcfg : Debounce.Config)
    (tcfg : Throttle.Config) (f g : α → ρ) (t u : Int) (s s2 : DState α ρ) :
    ((Debounce.cancel s).result = s.result ∧
     (Debounce.cancel s).invocations = s.invocations ∧
     Debounce.flush dcfg f t (Debounce.cancel s) =
       (Debounce.cancel s, s.result)) ∧
    ((Throttle.cancel s2).result = s2.result ∧
     (Throttle.cancel s2).invocations = s2.invocations ∧
     Throttle.flush tcfg g u (Throttle.cancel s2) =
       (Throttle.cancel s2, s2.result)) := by
  refine ⟨⟨rfl, rfl, ?_⟩, ⟨rfl, rfl, ?_⟩⟩
  · simp [Debounce.flush, Debounce.cancel]
  · simp [Throttle.flush, Throttle.cancel]

/-- C3 counterexample: for the debounce wrapper with trailing disabled, one
call at t = 1 leaves pending true with argument 7 stored, yet flush at t = 5
performs no invocation (the log stays empty) and returns none rather than
the result of an invocation with the pending arguments; so flush while
pending does not always invoke. -/
theorem c3_counterexample :
    Debounce.pending c3S = true ∧
    c3S.lastArgs = some 7 ∧
    (Debounce.flush c3Cfg (fun n : Nat => n + 1) 5 c3S).1.invocations =
      c3S.invocations ∧
    (Debounce.flush c3Cfg (fun n : Nat => n + 1) 5 c3S).2 = none := by
  refine ⟨?_, ?_, ?_, ?_⟩ <;> decide

/-- C3 amended: flush while pending forces trailing-edge completion, which
invokes with the pending arguments and returns that result only when the
trailing option is enabled and arguments are pending; otherwise it returns
the cached result without invoking.  Flush while not pending returns the
cached result and leaves the state untouched.  Both wrappers. -/
theorem c3_flush_amended (dcfg : Debounce.Config) (tcfg : Throttle.Config)
    (f g : α → ρ) (t u : Int) (s s2 : DState α ρ) :
    ((Debounce.pending s = false → Debounce.flush dcfg f t s = (s, s.result)) ∧
     (∀ a, Debounce.pending s = true → s.lastArgs = some a →
        dcfg.trailing = true →
        (Debounce.flush dcfg f t s).1.invocations = s.invocations ++ [(t, a)] ∧
        (Debounce.flush dcfg f t s).2 = some (f a)) ∧
     (Debounce.pending s = true → dcfg.trailing = false ∨ s.lastArgs = none →
        (Debounce.flush dcfg f t s).1.invocations = s.invocations ∧
        (Debounce.flush dcfg f t s).2 = s.result)) ∧
    ((Throttle.pending s2 = false → Throttle.flush tcfg g u s2 = (s2, s2.result)) ∧
     (∀ b, Throttle.pending s2 = true → s2.lastArgs = some b →
        tcfg.trailing = true →
        (Throttle.flush tcfg g u s2).1.invocations = s2.invocations ++ [(u, b)] ∧
        (Throttle.flush tcfg g u s2).2 = some (g b)) ∧
     (Throttle.pending s2 = true → tcfg.trailing = false ∨ s2.lastArgs = none →
        (Throttle.flush tcfg g u s2).1.invocations = s2.invocations ∧
        (Throttle.flush tcfg g u s2).2 = s2.result)) := by
  constructor
  · refine ⟨?_, ?_, ?_⟩
    · intro hp
      have hti : s.timeoutId = none := by
        cases hti : s.timeoutId with
        | none => rfl
        | some d => simp [Debounce.pending, hti] at hp
      simp [Debounce.flush, hti]
    · intro a hp ha htr
      obtain ⟨d, hti⟩ : ∃ d, s.timeoutId = some d := by
        cases hti : s.timeoutId with
        | none => simp [Debounce.pending, hti] at hp
        | some d => exact ⟨d, rfl⟩
      rw [show Debounce.flush dcfg f t s = Debounce.trailingEdge dcfg f t s by
            simp [Debounce.flush, hti],
          debounce_trailingEdge_invoke dcfg f t s a htr ha]
      exact ⟨rfl, rfl⟩
    · intro hp hskip
      obtain ⟨d, hti⟩ : ∃ d, s.timeoutId = some d := by
        cases hti : s.timeoutId with
        | none => simp [Debounce.pending, hti] at hp
        | some d => exact ⟨d, rfl⟩
      rw [show Debounce.flush dcfg f t s = Debounce.trailingEdge dcfg f t s by
            simp [Debounce.flush, hti],
          debounce_trailingEdge_skip dcfg f t s hskip]
      exact ⟨rfl, rfl⟩
  · refine ⟨?_, ?_, ?_⟩
    · intro hp
      have hti : s2.timeoutId = none := by
        cases hti : s2.timeoutId with
        | none => rfl
        | some d => simp [Throttle.pending, hti] at hp
      simp [Throttle.flush, hti]
    · intro b hp hb htr
      obtain ⟨d, hti⟩ : ∃ d, s2.timeoutId = some d := by
        cases hti : s2.timeoutId with
        | none => simp [Throttle.pending, hti] at hp
        | some d => exact ⟨d, rfl⟩
      rw [show Throttle.flush tcfg g u s2 = Throttle.trailingEdge tcfg g u s2 by
            simp [Throttle.flush, hti],
          throttle_trailingEdge_invoke tcfg g u s2 b htr hb]
      exact ⟨rfl, rfl⟩
    · intro hp hskip
      obtain ⟨d, hti⟩ : ∃ d, s2.timeoutId = some d := by
        cases hti : s2.timeoutId with
        | none => simp [Throttle.pending, hti] at hp
        | some d => exact ⟨d, rfl⟩
      rw [show Throttle.flush tcfg g u s2 = Throttle.trailingEdge tcfg g u s2 by
            simp [Throttle.flush, hti],
          throttle_trailingEdge_skip tcfg g u s2 hskip]
      exact ⟨rfl, rfl⟩

/-- C3 witness: on the default debounce wrapper with a trailing invocation
pending with argument 7, flush at t = 9 appends the invocation (9, 7) to
the log and returns the computed result 8. -/
theorem c3_flush_amended_witness :
    (Debounce.flush dfltDCfg (fun n : Nat => n + 1) 9 sPend).1.invocations =
      [((9 : Int), (7 : Nat))] ∧
    (Debounce.flush dfltDCfg (fun n : Nat => n + 1) 9 sPend).2 = some 8 :=
  (c3_flush_amended dfltDCfg dfltTCfg (fun n : Nat => n + 1)
      (fun n : Nat => n + 1) 9 0 sPend initState).1.2.1
    7 (by decide) (by decide) (by decide)

/-- C4 counterexample: with maxWait configured as 0, a call at t = 5 has
shouldInvoke true while a schedule is outstanding, yet the wrapper neither
invokes nor reschedules: the JavaScript truthiness check if (maxWait)
treats the configured 0 as absent, so the forced-invocation branch is
skipped. -/
theorem c4_counterexample :
    Debounce.shouldInvoke c4Cfg 5 c4S = true ∧
    c4S.timeoutId = some 101 ∧
    c4Cfg.maxWait = some 0 ∧
    (Debounce.debounced c4Cfg (fun n : Nat => n + 1) 5 2 c4S).1.invocations =
      [] ∧
    (Debounce.debounced c4Cfg (fun n : Nat => n + 1) 5 2 c4S).1.timeoutId =
      some 101 := by
  refine ⟨?_, ?_, ?_, ?_, ?_⟩ <;> decide

/-- C4 amended: on any debounce call where shouldInvoke(now) is true, a
schedule is outstanding, and a NONZERO maxWait is configured, the wrapper
reschedules the check for wait after now and invokes immediately with the
arguments of the current call, for every leading/trailing assignment. -/
theorem c4_maxwait_forced_invocation (wait : Int) (l tr : Bool) (mw : Int)
    (f : α → ρ) (t : Int) (a : α) (s : DState α ρ) (d : Int)
    (hmw : mw ≠ 0)
    (hsi : Debounce.shouldInvoke ⟨wait, l, tr, some mw⟩ t s = true)
    (hti : s.timeoutId = some d) :
    Debounce.debounced ⟨wait, l, tr, some mw⟩ f t a s =
      ({ timeoutId := some (t + wait), lastCallTime := t, lastInvokeTime := t,
         lastArgs := none, result := some (f a),
         invocations := s.invocations ++ [(t, a)] }, some (f a)) := by
  cases s with
  | mk ti lct lit la res inv =>
    simp only [DState.timeoutId] at hti
    subst hti
    simp [Debounce.debounced, Debounce.maxWaitTruthy, Debounce.invokeFunc,
          hsi, hmw]

/-- C4 witness: with wait 100 and maxWait 50, a second call at t = 52 (51ms
after the first actual burst start, past the maxWait ceiling, schedule still
outstanding) invokes immediately with its own argument 2 and reschedules
the check to fire at 152. -/
theorem c4_maxwait_forced_invocation_witness :
    Debounce.debounced c4WCfg (fun n : Nat => n + 1) 52 2 c4WS =
      ({ timeoutId := some 152, lastCallTime := 52, lastInvokeTime := 52,
         lastArgs := none, result := some 3,
         invocations := [((52 : Int), (2 : Nat))] }, some 3) :=
  c4_maxwait_forced_invocation 100 false true 50 (fun n : Nat => n + 1)
    52 2 c4WS 101 (by decide) (by decide) (by decide)

/-- C6 counterexample: a single call at t = 5 on a fresh default debounce
wrapper (leading disabled) assigns lastInvokeTime := 5 while the invocation
log stays empty, so lastInvokeTime changes without the underlying callable
being invoked in that step. -/
theorem c6_counterexample :
    (Debounce.debounced dfltDCfg (fun n : Nat => n + 1) 5 1 initState).1.lastInvokeTime
      = 5 ∧
    (initState : DState Nat Nat).lastInvokeTime = 0 ∧
    (Debounce.debounced dfltDCfg (fun n : Nat => n + 1) 5 1 initState).1.invocations
      = (initState : DState Nat Nat).invocations := by
  refine ⟨?_, ?_, ?_⟩ <;> decide

/-- C6 amended: lastInvokeTime changes only as a side effect of actually
invoking, or at the leading edge of a new burst/window (a wrapped call that
finds no schedule outstanding stamps lastInvokeTime with the call time even
when leading is false), or on cancel, which resets it to the sentinel 0.  In
particular every timer-expiry, flush, or wrapped-call step that does not
invoke and does not start a burst leaves lastInvokeTime unchanged.  Both
wrappers. -/
theorem c6_lastInvokeTime_discipline (dcfg : Debounce.Config)
    (tcfg : Throttle.Config) (f g : α → ρ) (t u : Int) (a b : α)
    (s s2 : DState α ρ) :
    (((Debounce.timerExpired dcfg f t s).1.invocations = s.invocations →
       (Debounce.timerExpired dcfg f t s).1.lastInvokeTime = s.lastInvokeTime) ∧
     ((Debounce.flush dcfg f t s).1.invocations = s.invocations →
       (Debounce.flush dcfg f t s).1.lastInvokeTime = s.lastInvokeTime) ∧
     (Debounce.cancel s).lastInvokeTime = 0 ∧
     ((Debounce.debounced dcfg f t a s).1.invocations = s.invocations →
       (Debounce.debounced dcfg f t a s).1.lastInvokeTime = s.lastInvokeTime ∨
         ((Debounce.debounced dcfg f t a s).1.lastInvokeTime = t ∧
           s.timeoutId = none))) ∧
    (((Throttle.timerExpired tcfg g u s2).1.invocations = s2.invocations →
       (Throttle.timerExpired tcfg g u s2).1.lastInvokeTime = s2.lastInvokeTime) ∧
     ((Throttle.flush tcfg g u s2).1.invocations = s2.invocations →
       (Throttle.flush tcfg g u s2).1.lastInvokeTime = s2.lastInvokeTime) ∧
     (Throttle.cancel s2).lastInvokeTime = 0 ∧
     ((Throttle.throttled tcfg g u b s2).1.invocations = s2.invocations →
       (Throttle.throttled tcfg g u b s2).1.lastInvokeTime = s2.lastInvokeTime ∨
         ((Throttle.throttled tcfg g u b s2).1.lastInvokeTime = u ∧
           s2.timeoutId = none))) :=
  ⟨⟨debounce_timerExpired_keeps_lastInvoke dcfg f t s,
    debounce_flush_keeps_lastInvoke dcfg f t s,
    rfl,
    debounce_call_lastInvoke dcfg f t a s⟩,
   ⟨throttle_timerExpired_keeps_lastInvoke tcfg g u s2,
    throttle_flush_keeps_lastInvoke tcfg g u s2,
    rfl,
    throttle_call_lastInvoke tcfg g u b s2⟩⟩

/-- C6 witness: on the pending debounce state (call at t = 1), the timer
check at t = 50 does not invoke and leaves lastInvokeTime at 1, and cancel
resets lastInvokeTime to 0. -/
theorem c6_lastInvokeTime_discipline_witness :
    (Debounce.timerExpired dfltDCfg (fun n : Nat => n + 1) 50 sPend).1.lastInvokeTime
      = sPend.lastInvokeTime ∧
    (Debounce.cancel sPend).lastInvokeTime = 0 :=
  ⟨(c6_lastInvokeTime_discipline dfltDCfg dfltTCfg (fun n : Nat => n + 1)
      (fun n : Nat => n + 1) 50 0 0 0 sPend initState).1.1 (by decide),
   (c6_lastInvokeTime_discipline dfltDCfg dfltTCfg (fun n : Nat => n + 1)
      (fun n : Nat => n + 1) 50 0 0 0 sPend initState).1.2.2.1⟩

/-- C9: for throttle with leading = false and trailing = true, a single call
on a fresh wrapper returns from the leading-edge branch without creating any
schedule: pending stays false, the log stays empty, and no passage of time
alone can invoke (the delivery driver leaves the state fixed).  A second
call arriving strictly inside the window (first call time nonzero) creates
the trailing schedule for t2 + wait. -/
theorem c9_throttle_nonleading_window (wait : Int) (f : α → ρ)
    (t1 t2 : Int) (a1 a2 : α) (k : Nat) :
    Throttle.throttled ⟨wait, false, true⟩ f t1 a1 initState =
      (⟨none, t1, t1, some a1, none, []⟩, none) ∧
    Throttle.pending
      (Throttle.throttled ⟨wait, false, true⟩ f t1 a1 initState).1 = false ∧
    Throttle.drain ⟨wait, false, true⟩ f k
        (Throttle.throttled ⟨wait, false, true⟩ f t1 a1 initState).1 =
      (Throttle.throttled ⟨wait, false, true⟩ f t1 a1 initState).1 ∧
    (0 < t1 → t1 ≤ t2 → t2 - t1 < wait →
      (Throttle.throttled ⟨wait, false, true⟩ f t2 a2
          (Throttle.throttled ⟨wait, false, true⟩ f t1 a1 initState).1).1 =
        ⟨some (t2 + wait), t2, t1, some a2, none, []⟩) := by
  have h1 : Throttle.throttled ⟨wait, false, true⟩ f t1 a1 initState =
      (⟨none, t1, t1, some a1, none, []⟩, none) := by
    simp [Throttle.throttled, Throttle.shouldInvoke, Throttle.leadingEdge,
          initState]
  refine ⟨h1, ?_, ?_, ?_⟩
  · rw [h1]
    rfl
  · rw [h1]
    exact throttle_drain_none _ f _ rfl k
  · intro ht1 ht2 ht3
    rw [h1]
    simp [Throttle.throttled, Throttle.shouldInvoke,
          show ¬(t1 = 0) from by omega, show ¬(wait ≤ t2 - t1) from by omega,
          show ¬(t2 - t1 < 0) from by omega]

/-- C9 witness: wait 100, first call at t = 1 (no schedule, pending false),
second call at t = 50 creates the trailing schedule for 150. -/
theorem c9_throttle_nonleading_window_witness :
    (Throttle.throttled ⟨100, false, true⟩ (fun n : Nat => n + 1) 50 20
        (Throttle.throttled ⟨100, false, true⟩ (fun n : Nat => n + 1) 1 10
          initState).1).1 =
      ⟨some 150, 50, 1, some 20, none, []⟩ :=
  (c9_throttle_nonleading_window 100 (fun n : Nat => n + 1) 1 50 10 20
      0).2.2.2 (by decide) (by decide) (by decide)

end Claims


section BurstLemmas

variable {α ρ : Type}

theorem debounce_shouldInvoke_false_nomax (wait : Int) (l tr : Bool)
    (t : Int) (s : DState α ρ) (h1 : s.lastCallTime ≠ 0)
    (h2 : 0 ≤ t - s.lastCallTime) (h3 : t - s.lastCallTime < wait) :
    Debounce.shouldInvoke ⟨wait, l, tr, none⟩ t s = false := by
  simp [Debounce.shouldInvoke, h1]
  omega

theorem debounce_shouldInvoke_true_ge (wait : Int) (l tr : Bool) (t : Int)
    (s : DState α ρ) (h : wait ≤ t - s.lastCallTime) :
    Debounce.shouldInvoke ⟨wait, l, tr, none⟩ t s = true := by
  simp [Debounce.shouldInvoke, h]

theorem debounce_remainingWait_nomax (wait : Int) (l tr : Bool) (t : Int)
    (s : DState α ρ) :
    Debounce.remainingWait ⟨wait, l, tr, none⟩ t s =
      wait - (t - s.lastCallTime) := rfl

theorem debounce_call_timeout_set (cfg : Debounce.Config) (f : α → ρ)
    (t : Int) (a : α) (s : DState α ρ) (d : Int)
    (hmx : Debounce.maxWaitTruthy cfg = false) (hti : s.timeoutId = some d) :
    Debounce.debounced cfg f t a s =
      ({ s with lastArgs := some a, lastCallTime := t }, s.result) := by
  cases s with
  | mk ti lct lit la res inv =>
    simp only [DState.timeoutId] at hti
    subst hti
    cases hsi : Debounce.shouldInvoke cfg t ⟨some d, lct, lit, la, res, inv⟩ <;>
      simp [Debounce.debounced, hsi, hmx]

theorem debounce_timerExpired_reschedule_fst (cfg : Debounce.Config)
    (f : α → ρ) (t : Int) (s : DState α ρ)
    (hsi : Debounce.shouldInvoke cfg t s = false) :
    (Debounce.timerExpired cfg f t s).1 =
      { s with timeoutId := some (t + Debounce.remainingWait cfg t s) } := by
  simp [Debounce.timerExpired, hsi]

theorem debounce_timerExpired_invoke_fst (cfg : Debounce.Config) (f : α → ρ)
    (t : Int) (s : DState α ρ) (a : α)
    (hsi : Debounce.shouldInvoke cfg t s = true) (htr : cfg.trailing = true)
    (hla : s.lastArgs = some a) :
    (Debounce.timerExpired cfg f t s).1 =
      { s with timeoutId := none, lastArgs := none, lastInvokeTime := t,
               result := some (f a),
               invocations := s.invocations ++ [(t, a)] } := by
  rw [show Debounce.timerExpired cfg f t s = Debounce.trailingEdge cfg f t s by
        simp [Debounce.timerExpired, hsi]]
  rw [debounce_trailingEdge_invoke cfg f t s a htr hla]

theorem debounce_fireDue_step (cfg : Debounce.Config) (f : α → ρ) (t : Int)
    (fuel : Nat) (s : DState α ρ) (d : Int) (hti : s.timeoutId = some d)
    (hle : d ≤ t) :
    Debounce.fireDue cfg f t (fuel + 1) s =
      Debounce.fireDue cfg f t fuel (Debounce.timerExpired cfg f d s).1 := by
  simp [Debounce.fireDue, hti, hle]

theorem debounce_drain_step (cfg : Debounce.Config) (f : α → ρ) (fuel : Nat)
    (s : DState α ρ) (d : Int) (hti : s.timeoutId = some d) :
    Debounce.drain cfg f (fuel + 1) s =
      Debounce.drain cfg f fuel (Debounce.timerExpired cfg f d s).1 := by
  simp [Debounce.drain, hti]

theorem debounce_burst_first (wait : Int) (f : α → ρ) (t0 : Int) (a0 : α)
    (hw : 0 < wait) (ht0 : 0 ≤ t0) :
    BurstInv wait t0 a0
      ((Debounce.debounced ⟨wait, false, true, none⟩ f t0 a0 initState).1) := by
  have hcall :
      (Debounce.debounced ⟨wait, false, true, none⟩ f t0 a0 initState).1 =
        ⟨some (t0 + wait), t0, t0, some a0, none, []⟩ := by
    simp [Debounce.debounced, Debounce.shouldInvoke, Debounce.leadingEdge,
          initState]
  rw [hcall]
  exact ⟨ht0, rfl, rfl, rfl, t0 + wait, rfl, by omega, by omega, fun _ => rfl⟩

theorem debounce_burst_step (wait : Int) (f : α → ρ) (t t2 : Int) (a a2 : α)
    (s : DState α ρ) (fuel : Nat) (hw : 0 < wait)
    (hInv : BurstInv wait t a s) (h1 : t ≤ t2) (h2 : t2 - t < wait) :
    BurstInv wait t2 a2
      ((Debounce.debounced ⟨wait, false, true, none⟩ f t2 a2
        (Debounce.fireDue ⟨wait, false, true, none⟩ f t2 (fuel + 1) s)).1) := by
  obtain ⟨ht0, hlct, hla, hinv, d, hti, hdgt, hdle, hsent⟩ := hInv
  by_cases hfire : d ≤ t2
  · have htne : t ≠ 0 := by
      intro h0
      have := hsent h0
      omega
    have hsi : Debounce.shouldInvoke ⟨wait, false, true, none⟩ d s = false :=
      debounce_shouldInvoke_false_nomax wait false true d s
        (by rw [hlct]; exact htne) (by rw [hlct]; omega) (by rw [hlct]; omega)
    have hrw : d + Debounce.remainingWait ⟨wait, false, true, none⟩ d s =
        t + wait := by
      rw [debounce_remainingWait_nomax, hlct]
      ring
    have hfd : Debounce.fireDue ⟨wait, false, true, none⟩ f t2 (fuel + 1) s =
        { s with timeoutId := some (t + wait) } := by
      rw [debounce_fireDue_step _ f t2 fuel s d hti hfire,
          debounce_timerExpired_reschedule_fst _ f d s hsi, hrw]
      exact debounce_fireDue_noop _ f t2 _
        (fun d' hd' => by
          simp at hd'
          omega) fuel
    rw [hfd, debounce_call_timeout_set ⟨wait, false, true, none⟩ f t2 a2 _
          (t + wait) rfl rfl]
    exact ⟨by omega, rfl, rfl, hinv, t + wait, rfl, by omega, by omega,
           fun h => by omega⟩
  · have hfd : Debounce.fireDue ⟨wait, false, true, none⟩ f t2 (fuel + 1) s =
        s :=
      debounce_fireDue_noop _ f t2 _
        (fun d' hd' => by
          rw [hti] at hd'
          injection hd' with he
          omega) (fuel + 1)
    rw [hfd, debounce_call_timeout_set ⟨wait, false, true, none⟩ f t2 a2 s d
          rfl hti]
    refine ⟨by omega, rfl, rfl, hinv, d, hti, by omega, by omega, ?_⟩
    intro h0
    have := hsent (by omega)
    omega

theorem debounce_burst_run (wait : Int) (f : α → ρ) (fuel : Nat)
    (rest : List (Int × α)) : ∀ (t : Int) (a : α) (s : DState α ρ),
    0 < wait → BurstInv wait t a s → Debounce.okGaps wait t rest = true →
    BurstInv wait (Debounce.lastCall t a rest).1 (Debounce.lastCall t a rest).2
      (Debounce.runBurst ⟨wait, false, true, none⟩ f (fuel + 1) rest s) := by
  induction rest with
  | nil =>
    intro t a s hw hInv _
    simpa [Debounce.runBurst, Debounce.lastCall] using hInv
  | cons p rest ih =>
    obtain ⟨t2, a2⟩ := p
    intro t a s hw hInv hgap
    simp only [Debounce.okGaps, Bool.and_eq_true, decide_eq_true_eq] at hgap
    obtain ⟨⟨hg1, hg2⟩, hg3⟩ := hgap
    have hstep := debounce_burst_step wait f t t2 a a2 s fuel hw hInv hg1 hg2
    simpa [Debounce.runBurst, Debounce.lastCall] using
      ih t2 a2 _ hw hstep hg3

theorem debounce_burst_drain (wait : Int) (f : α → ρ) (t : Int) (a : α)
    (s : DState α ρ) (hw : 0 < wait) (hInv : BurstInv wait t a s) :
    Debounce.drain ⟨wait, false, true, none⟩ f 2 s =
      ⟨none, t, t + wait, none, some (f a), [(t + wait, a)]⟩ := by
  obtain ⟨ht0, hlct, hla, hinv, d, hti, hdgt, hdle, hsent⟩ := hInv
  by_cases hd : d = t + wait
  · subst hd
    have hsi : Debounce.shouldInvoke ⟨wait, false, true, none⟩ (t + wait) s =
        true :=
      debounce_shouldInvoke_true_ge wait false true (t + wait) s
        (by rw [hlct]; omega)
    rw [debounce_drain_step _ f 1 s (t + wait) hti,
        debounce_timerExpired_invoke_fst _ f (t + wait) s a hsi rfl hla]
    rw [debounce_drain_none _ f _ rfl 1]
    simp [hlct, hinv]
  · have htne : t ≠ 0 := fun h0 => hd (hsent h0)
    have hsi1 : Debounce.shouldInvoke ⟨wait, false, true, none⟩ d s = false :=
      debounce_shouldInvoke_false_nomax wait false true d s
        (by rw [hlct]; exact htne) (by rw [hlct]; omega) (by rw [hlct]; omega)
    have hrw : d + Debounce.remainingWait ⟨wait, false, true, none⟩ d s =
        t + wait := by
      rw [debounce_remainingWait_nomax, hlct]
      ring
    rw [debounce_drain_step _ f 1 s d hti,
        debounce_timerExpired_reschedule_fst _ f d s hsi1, hrw]
    have hsi2 : Debounce.shouldInvoke ⟨wait, false, true, none⟩ (t + wait)
        { s with timeoutId := some (t + wait) } = true :=
      debounce_shouldInvoke_true_ge wait false true (t + wait) _
        (show wait ≤ t + wait - s.lastCallTime by rw [hlct]; omega)
    rw [debounce_drain_step _ f 0 _ (t + wait) rfl,
        debounce_timerExpired_invoke_fst _ f (t + wait) _ a hsi2 rfl
          (show s.lastArgs = some a from hla)]
    simp [Debounce.drain, hlct, hinv]

end BurstLemmas

section ClaimOne

variable {α ρ : Type}

/-- C1: for a debounce wrapper with trailing = true, leading = false (and
the default absent maxWait), every burst of one or more calls whose
consecutive gaps are nonnegative and shorter than wait, followed by a quiet
period in which the scheduled checks fire at their deadlines, produces
exactly one invocation of the underlying callable, at the time of the last
call plus wait, with the arguments of the last call; afterwards no schedule
is outstanding.  In particular calls at t = 0, 10, 20 with wait = 100 yield
the single invocation (120, last arguments). -/
theorem c1_debounce_trailing_collapse (wait : Int) (f : α → ρ) (t0 : Int)
    (a0 : α) (rest : List (Int × α)) (fuel : Nat) (hw : 0 < wait)
    (ht0 : 0 ≤ t0) (hgaps : Debounce.okGaps wait t0 rest = true) :
    Debounce.drain ⟨wait, false, true, none⟩ f 2
        (Debounce.runBurst ⟨wait, false, true, none⟩ f (fuel + 1)
          ((t0, a0) :: rest) initState) =
      ⟨none, (Debounce.lastCall t0 a0 rest).1,
       (Debounce.lastCall t0 a0 rest).1 + wait, none,
       some (f (Debounce.lastCall t0 a0 rest).2),
       [((Debounce.lastCall t0 a0 rest).1 + wait,
         (Debounce.lastCall t0 a0 rest).2)]⟩ := by
  have hfirst : Debounce.fireDue ⟨wait, false, true, none⟩ f t0 (fuel + 1)
      initState = initState :=
    debounce_fireDue_noop _ f t0 _
      (fun d hd => by simp [initState] at hd) (fuel + 1)
  have hrun : Debounce.runBurst ⟨wait, false, true, none⟩ f (fuel + 1)
      ((t0, a0) :: rest) initState =
      Debounce.runBurst ⟨wait, false, true, none⟩ f (fuel + 1) rest
        ((Debounce.debounced ⟨wait, false, true, none⟩ f t0 a0 initState).1) := by
    simp [Debounce.runBurst, hfirst]
  rw [hrun]
  exact debounce_burst_drain wait f _ _ _ hw
    (debounce_burst_run wait f fuel rest t0 a0 _ hw
      (debounce_burst_first wait f t0 a0 hw ht0) hgaps)

/-- C1 witness: calls at t = 0, 10, 20 with arguments 0, 1, 2 and wait = 100
collapse to the single invocation (120, 2) and leave nothing scheduled. -/
theorem c1_debounce_trailing_collapse_witness :
    Debounce.drain ⟨100, false, true, none⟩ (fun n : Nat => n) 2
        (Debounce.runBurst ⟨100, false, true, none⟩ (fun n : Nat => n) 1
          [((0 : Int), (0 : Nat)), (10, 1), (20, 2)] initState) =
      ⟨none, 20, 120, none, some 2, [(120, 2)]⟩ :=
  c1_debounce_trailing_collapse 100 (fun n : Nat => n) 0 0 [(10, 1), (20, 2)]
    0 (by decide) (by decide) (by decide)

end ClaimOne
